import Mathlib

/-!
Shallow embedding of the financial calculation microservice
(`python-service/app.py`): the date parser `parse_date`, the
date-context filter `filter_by_date_context`, and the two aggregators
`calculate_sales` and `calculate_profit`.

Conventions of the embedding:
* pandas/NumPy floats are modelled as `Rat` (the claims involve only
  exact decimal arithmetic);
* a missing value (`None` / `NaN`) is `Option.none`;
* a Python exception escaping to the request boundary is modelled by
  the aggregators returning `Option.none`;
* strings are processed as their character lists.
-/

/-- Two-digit years under `%y`: POSIX pivot used by CPython/pandas
`strptime`: 0–68 map to 2000–2068, 69–99 map to 1969–1999. -/
def pivotYear (yy : Nat) : Nat :=
  if yy ≤ 68 then 2000 + yy else 1900 + yy

/-- Gregorian leap-year rule (as validated by `datetime`). -/
def isLeapYear (y : Nat) : Bool :=
  y % 4 == 0 && (y % 100 != 0 || y % 400 == 0)

/-- Number of days in a month, as validated when a parsed date is
materialised as a `datetime`/`Timestamp`. -/
def daysInMonth (y m : Nat) : Nat :=
  if m = 2 then (if isLeapYear y then 29 else 28)
  else if m = 4 ∨ m = 6 ∨ m = 9 ∨ m = 11 then 30
  else 31

/-- A calendar date (the value carried by a pandas `Timestamp`). -/
structure Date where
  year : Nat
  month : Nat
  day : Nat
deriving DecidableEq

/-- The date is an actual calendar date. -/
def ValidDate (d : Date) : Prop :=
  1 ≤ d.month ∧ d.month ≤ 12 ∧ 1 ≤ d.day ∧ d.day ≤ daysInMonth d.year d.month

instance (d : Date) : Decidable (ValidDate d) := by
  unfold ValidDate; infer_instance

/-- Numeric value of a digit character. -/
def digitVal (c : Char) : Nat := c.toNat - '0'.toNat

/-- Split a character list at every occurrence of `c` (the separator
structure of the `%d-%b-%y` pattern). -/
def splitOnChar (c : Char) : List Char → List (List Char)
  | [] => [[]]
  | x :: xs =>
    if x = c then [] :: splitOnChar c xs
    else
      match splitOnChar c xs with
      | [] => [[x]]
      | h :: t => (x :: h) :: t

/-- The `%d` directive of CPython/pandas `strptime`: one digit `1`–`9`,
a space followed by one digit `1`–`9`, or two digits with value
`01`–`31`. -/
def parseDayChars : List Char → Option Nat
  | [c] => if c.isDigit ∧ c ≠ '0' then some (digitVal c) else none
  | [c1, c2] =>
    if c1 = ' ' then
      (if c2.isDigit ∧ c2 ≠ '0' then some (digitVal c2) else none)
    else if c1.isDigit ∧ c2.isDigit then
      (let v := 10 * digitVal c1 + digitVal c2
       if 1 ≤ v ∧ v ≤ 31 then some v else none)
    else none
  | _ => none

/-- The `%y` directive: exactly two digits. -/
def parseYearChars : List Char → Option Nat
  | [c1, c2] =>
    if c1.isDigit ∧ c2.isDigit then some (10 * digitVal c1 + digitVal c2)
    else none
  | _ => none

/-- The `%b` directive: a three-letter English month abbreviation,
matched case-insensitively. -/
def parseMonthAbbrev (cs : List Char) : Option Nat :=
  let l := cs.map Char.toLower
  if l = "jan".data then some 1
  else if l = "feb".data then some 2
  else if l = "mar".data then some 3
  else if l = "apr".data then some 4
  else if l = "may".data then some 5
  else if l = "jun".data then some 6
  else if l = "jul".data then some 7
  else if l = "aug".data then some 8
  else if l = "sep".data then some 9
  else if l = "oct".data then some 10
  else if l = "nov".data then some 11
  else if l = "dec".data then some 12
  else none

/-- Strict parse of the full `%d-%b-%y` format
(`pd.to_datetime(s, format=..., errors=coerce)`): day, month
abbreviation, two-digit pivot year, then calendar validation; any
failure yields the `NaT` sentinel (`none`). -/
def parseDMYChars (cs : List Char) : Option Date :=
  match splitOnChar '-' cs with
  | [p1, p2, p3] =>
    match parseDayChars p1, parseMonthAbbrev p2, parseYearChars p3 with
    | some day, some m, some yy =>
      let yr := pivotYear yy
      if day ≤ daysInMonth yr m then some ⟨yr, m, day⟩ else none
    | _, _, _ => none
  | _ => none

/-- Run of decimal digits read as a number. -/
def natOfDigits (cs : List Char) : Nat :=
  cs.foldl (fun a c => 10 * a + digitVal c) 0

/-- Model of the lenient `pd.to_datetime` fallback that the source
reaches only for hyphen-free strings; modelled for slash-separated
`YYYY/MM/DD` input only (no claim depends on this branch, which only
matters for hyphen-free date strings). -/
def genericParseChars (cs : List Char) : Option Date :=
  match splitOnChar '/' cs with
  | [p1, p2, p3] =>
    if p1.length = 4 ∧ p1.all Char.isDigit ∧
       (p2.length = 1 ∨ p2.length = 2) ∧ p2.all Char.isDigit ∧
       (p3.length = 1 ∨ p3.length = 2) ∧ p3.all Char.isDigit then
      let y := natOfDigits p1
      let m := natOfDigits p2
      let d := natOfDigits p3
      if 1 ≤ m ∧ m ≤ 12 ∧ 1 ≤ d ∧ d ≤ daysInMonth y m then some ⟨y, m, d⟩
      else none
    else none
  | _ => none

/-- `parse_date` from the source: `None`/`NaN`/empty input is
unparseable; a string containing a hyphen is parsed strictly as
`%d-%b-%y` with no fallback; any other string gets the lenient parse.
Every failure is swallowed into the unparseable sentinel `none`. -/
def parse_date (v : Option String) : Option Date :=
  match v with
  | none => none
  | some s =>
    if s.data = [] then none
    else if '-' ∈ s.data then parseDMYChars s.data
    else genericParseChars s.data

/-- A JSON-ish amount value as it arrives in a record: a number, a
string, or missing (`NaN` in the frame). -/
inductive JVal where
  | num (q : Rat)
  | str (s : String)
  | null
deriving DecidableEq

/-- Unsigned decimal numeral with an optional fractional part, as
accepted by `pd.to_numeric` (exponents are not modelled; no claim
involves them). -/
def parseUnsignedChars (cs : List Char) : Option Rat :=
  let intPart := cs.takeWhile Char.isDigit
  let rest := cs.dropWhile Char.isDigit
  match rest with
  | [] => if intPart = [] then none else some (natOfDigits intPart : Rat)
  | '.' :: frac =>
    if frac.all Char.isDigit ∧ (intPart ≠ [] ∨ frac ≠ []) then
      some ((natOfDigits intPart : Rat) +
            (natOfDigits frac : Rat) / (10 ^ frac.length : Nat))
    else none
  | _ => none

/-- Signed decimal numeral for `pd.to_numeric(..., errors=coerce)`. -/
def parseNumChars (cs : List Char) : Option Rat :=
  match cs with
  | '-' :: rest => (parseUnsignedChars rest).map Neg.neg
  | '+' :: rest => parseUnsignedChars rest
  | _ => parseUnsignedChars cs

/-- Amount coercion of the aggregators:
`pd.to_numeric(..., errors=coerce).fillna(0)` — numbers pass through,
numeric strings parse, everything else becomes `0`. -/
def coerceAmount : JVal → Rat
  | .num q => q
  | .null => 0
  | .str s => (parseNumChars s.data).getD 0

/-- Python `int(...)` on a string (optional sign, decimal digits);
`none` models the `ValueError` it raises otherwise. -/
def pyIntChars (cs : List Char) : Option Int :=
  match cs with
  | '-' :: ds =>
    if ds ≠ [] ∧ ds.all Char.isDigit then some (-(natOfDigits ds : Int))
    else none
  | '+' :: ds =>
    if ds ≠ [] ∧ ds.all Char.isDigit then some (natOfDigits ds : Int)
    else none
  | ds =>
    if ds ≠ [] ∧ ds.all Char.isDigit then some (natOfDigits ds : Int)
    else none

/-- An input transaction record (a row of the request payload). A
`none` field models a key that is absent (`NaN` in the frame). -/
structure SalesRecord where
  date : Option String
  amount : JVal
  account : Option String
deriving DecidableEq

/-- A row after the amount column has been coerced to numeric. -/
structure CRec where
  date : Option String
  amount : Rat
  account : Option String
deriving DecidableEq

/-- Coerce one record's amount, keeping the other columns. -/
def coerceRec (r : SalesRecord) : CRec :=
  ⟨r.date, coerceAmount r.amount, r.account⟩

/-- A month selector in a date context: a name string or an integer. -/
inductive MonthVal where
  | str (s : String)
  | int (n : Int)
deriving DecidableEq

/-- A year selector in a date context: a string or an integer. -/
inductive YearVal where
  | str (s : String)
  | int (n : Int)
deriving DecidableEq

/-- The `date_context` object of a request. The aggregators receive
`Option DateContext`; `none` models an absent or empty (falsy)
context. -/
structure DateContext where
  isDateSpecific : Bool
  months : List MonthVal
  years : List YearVal
deriving DecidableEq

/-- The fixed month-name table of the filter. -/
def monthMapLookup (cs : List Char) : Option Int :=
  if cs = "jan".data then some 1
  else if cs = "feb".data then some 2
  else if cs = "mar".data then some 3
  else if cs = "apr".data then some 4
  else if cs = "may".data then some 5
  else if cs = "jun".data then some 6
  else if cs = "jul".data then some 7
  else if cs = "aug".data then some 8
  else if cs = "sep".data then some 9
  else if cs = "oct".data then some 10
  else if cs = "nov".data then some 11
  else if cs = "dec".data then some 12
  else none

/-- Month-list normalization of the filter: strings map their lowered
three-letter prefix through the name table (unrecognized ones are
silently discarded), integers are used as-is. -/
def normMonths (ms : List MonthVal) : List Int :=
  ms.flatMap fun m =>
    match m with
    | .str s =>
      match monthMapLookup ((s.data.map Char.toLower).take 3) with
      | some n => [n]
      | none => []
    | .int n => [n]

/-- Year-list normalization: a two-character string is `2000 + int(s)`,
any other string is `int(s)` (whose failure raises, modelled by
`none`), integers are used as-is. -/
def normYears : List YearVal → Option (List Int)
  | [] => some []
  | .str s :: rest => do
    let n ← pyIntChars s.data
    let y : Int := if s.data.length = 2 then 2000 + n else n
    let tl ← normYears rest
    some (y :: tl)
  | .int n :: rest => do
    let tl ← normYears rest
    some ((n : Int) :: tl)

/-- The date-parse step of the filter: drop every row whose date is
unparseable (`dropna` on the freshly computed `parsed_date` column). -/
def dropUnparseable (rs : List CRec) : List CRec :=
  rs.filter fun r => (parse_date r.date).isSome

/-- The month step of the filter: active only when the months list is
truthy and its normalization is non-empty. -/
def applyMonthFilter (rs : List CRec) (months : List MonthVal) : List CRec :=
  if months.isEmpty then rs
  else if (normMonths months).isEmpty then rs
  else rs.filter fun r =>
    match parse_date r.date with
    | some d => (normMonths months).contains (Int.ofNat d.month)
    | none => false

/-- The year step of the filter; `none` models the `ValueError` of a
non-numeric year string escaping to the request boundary. -/
def applyYearFilter (rs : List CRec) (years : List YearVal) :
    Option (List CRec) :=
  if years.isEmpty then some rs
  else
    match normYears years with
    | none => none
    | some ys =>
      if ys.isEmpty then some rs
      else some (rs.filter fun r =>
        match parse_date r.date with
        | some d => ys.contains (Int.ofNat d.year)
        | none => false)

/-- `filter_by_date_context` from the source: a no-op unless the
context is present with a truthy `isDateSpecific`; otherwise the
date-parse drop, then the month filter, then the year filter. -/
def filter_by_date_context (rs : List CRec) (dc : Option DateContext) :
    Option (List CRec) :=
  match dc with
  | none => some rs
  | some c =>
    if !c.isDateSpecific then some rs
    else applyYearFilter (applyMonthFilter (dropUnparseable rs) c.months) c.years

/-- Two zero-padded decimal digits (`%02d`). -/
def pad2c (n : Nat) : List Char :=
  [Nat.digitChar (n / 10 % 10), Nat.digitChar (n % 10)]

/-- Four zero-padded decimal digits. -/
def pad4c (n : Nat) : List Char :=
  [Nat.digitChar (n / 1000 % 10), Nat.digitChar (n / 100 % 10),
   Nat.digitChar (n / 10 % 10), Nat.digitChar (n % 10)]

/-- Capitalized English month abbreviation, as `strftime` `%b` renders
it in the C locale. -/
def monthAbbrevU : Nat → List Char
  | 1 => "Jan".data
  | 2 => "Feb".data
  | 3 => "Mar".data
  | 4 => "Apr".data
  | 5 => "May".data
  | 6 => "Jun".data
  | 7 => "Jul".data
  | 8 => "Aug".data
  | 9 => "Sep".data
  | 10 => "Oct".data
  | 11 => "Nov".data
  | 12 => "Dec".data
  | _ => []

/-- `strftime(%d-%b-%y)`, the format used to render `date_range`. -/
def formatDMY (d : Date) : String :=
  ⟨pad2c d.day ++ '-' :: monthAbbrevU d.month ++ '-' :: pad2c (d.year % 100)⟩

/-- The monthly grouping key: a calendar period `(year, month)` packed
into one number (month occupies the low 4 bits, so the order agrees
with the lexicographic period order). -/
def pKey (d : Date) : Nat := d.year * 16 + d.month

/-- `str(period)` for a monthly period: the `YYYY-MM` rendering. -/
def periodStr (k : Nat) : String :=
  ⟨pad4c (k / 16) ++ '-' :: pad2c (k % 16)⟩

/-- Total order on dates via a packed serial number (days occupy the
low 5 bits). -/
def serialD (d : Date) : Nat := pKey d * 32 + d.day

/-- The `parsed_date` column next to its row, after `dropna`:
the rows that enter the date-dependent outputs. -/
def parsedRows (df : List CRec) : List (CRec × Date) :=
  df.filterMap fun r => (parse_date r.date).map fun d => (r, d)

/-- One entry of the sales monthly breakdown. -/
structure MEntry where
  amount : Rat
  count : Nat
deriving DecidableEq

/-- The sales monthly breakdown: group the date-carrying rows by
calendar period (group keys ascending, as `groupby` sorts them), and
record each group's amount sum and size. -/
def monthlyBreakdown (rows : List (CRec × Date)) : List (String × MEntry) :=
  let keys := List.insertionSort (· ≤ ·) ((rows.map fun p => pKey p.2).dedup)
  keys.map fun k =>
    let g := rows.filter fun p => pKey p.2 == k
    (periodStr k, ⟨(g.map fun p => p.1.amount).sum, g.length⟩)

/-- Lexicographic byte order on strings (the ascending key order of a
pandas `groupby` over an ASCII account column). -/
def strLeB (a b : String) : Bool :=
  let rec go : List Char → List Char → Bool
    | [], _ => true
    | _ :: _, [] => false
    | x :: xs, y :: ys =>
      if x = y then go xs ys else decide (x.toNat < y.toNat)
  go a.data b.data

/-- The customer breakdown: present only when the `account` column
exists in the input frame; rows with a missing account are dropped by
`groupby`; per-account sums are listed descending by amount and the
first ten are kept. -/
def customerBreakdown (df0 df : List CRec) : List (String × Rat) :=
  if df0.any fun r => r.account.isSome then
    let withAcc := df.filterMap fun r => r.account.map fun a => (a, r.amount)
    let accs := List.insertionSort (fun a b => strLeB a b = true)
      ((withAcc.map Prod.fst).dedup)
    let pairs := accs.map fun a =>
      (a, ((withAcc.filter fun p => p.1 == a).map Prod.snd).sum)
    (List.insertionSort (fun x y => y.2 ≤ x.2) pairs).take 10
  else []

/-- The `date_range` string: `min to max` over the parsed dates in the
`%d-%b-%y` rendering, or the no-dates sentinel. -/
def dateRangeStr (rows : List (CRec × Date)) : String :=
  match rows.map Prod.snd with
  | [] => "No dates"
  | d :: ds =>
    let mn := ds.foldl (fun a b => if serialD b < serialD a then b else a) d
    let mx := ds.foldl (fun a b => if serialD a < serialD b then b else a) d
    String.append (formatDMY mn) (String.append " to " (formatDMY mx))

/-- The response of the sales endpoint. -/
structure SalesSummary where
  total_amount : Rat
  voucher_count : Nat
  monthly_breakdown : List (String × MEntry)
  customer_breakdown : List (String × Rat)
  date_range : String
deriving DecidableEq

/-- `calculate_sales` from the source: empty input returns the zero
summary at once; otherwise coerce amounts, apply the date-context
filter (whose failure is the error response `none`), then take totals
over the filtered frame and re-parse dates for the breakdowns and the
date range. -/
def calculate_sales (sales_data : List SalesRecord)
    (date_context : Option DateContext) : Option SalesSummary :=
  if sales_data.isEmpty then
    some ⟨0, 0, [], [], "No data"⟩
  else
    let df0 := sales_data.map coerceRec
    match filter_by_date_context df0 date_context with
    | none => none
    | some df =>
      let rows := parsedRows df
      some ⟨(df.map fun r => r.amount).sum, df.length,
            monthlyBreakdown rows, customerBreakdown df0 df,
            dateRangeStr rows⟩

/-- One entry of the profit monthly breakdown. -/
structure PEntry where
  revenue : Rat
  expense : Rat
  profit : Rat
deriving DecidableEq

/-- The response of the profit endpoint. -/
structure ProfitSummary where
  total_revenue : Rat
  total_expenses : Rat
  net_profit : Rat
  monthly_breakdown : List (String × PEntry)
  revenue_entries : Nat
  expense_entries : Nat
deriving DecidableEq

/-- One side (revenue or expense) of the profit computation: an empty
list stays an empty frame untouched; otherwise amounts are coerced and
the date-context filter is applied. -/
def profitSide (data : List SalesRecord) (dc : Option DateContext) :
    Option (List CRec) :=
  if data.isEmpty then some []
  else filter_by_date_context (data.map coerceRec) dc

/-- `calculate_profit` from the source: both sides are coerced and
filtered; totals and entry counts come from the filtered frames; the
monthly breakdown groups the type-tagged combined rows (revenue rows
first, tag `true`) by calendar period after dropping unparseable
dates. -/
def calculate_profit (revenue_data expense_data : List SalesRecord)
    (dc : Option DateContext) : Option ProfitSummary :=
  match profitSide revenue_data dc, profitSide expense_data dc with
  | some rdf, some edf =>
    let total_revenue := (rdf.map fun r => r.amount).sum
    let total_expenses := (edf.map fun r => r.amount).sum
    let combined := rdf.map (fun r => (r, true)) ++ edf.map (fun r => (r, false))
    let crows := combined.filterMap fun p =>
      (parse_date p.1.date).map fun d => (p.1, p.2, d)
    let keys := List.insertionSort (· ≤ ·) ((crows.map fun t => pKey t.2.2).dedup)
    let mb := keys.map fun k =>
      let g := crows.filter fun t => pKey t.2.2 == k
      let rev := ((g.filter fun t => t.2.1 == true).map fun t => t.1.amount).sum
      let ex := ((g.filter fun t => t.2.1 == false).map fun t => t.1.amount).sum
      (periodStr k, (⟨rev, ex, rev - ex⟩ : PEntry))
    some ⟨total_revenue, total_expenses, total_revenue - total_expenses,
          mb, rdf.length, edf.length⟩
  | _, _ => none

/-! ### The concrete scenarios of the spec -/

attribute [local semireducible] Rat.add Rat.sub

/-- The three-record sales scenario of the spec. -/
def scenarioSales : List SalesRecord :=
  [⟨some "01-Jan-23", JVal.str "100", some "A"⟩,
   ⟨some "15-Jan-23", JVal.num 200, some "B"⟩,
   ⟨some "01-Feb-23", JVal.num 50, some "A"⟩]

/-- The January-only date context of the spec scenario. -/
def janContext : DateContext := ⟨true, [MonthVal.str "jan"], []⟩

/-- C1: on the three-record scenario with no date context,
`calculate_sales` returns total 350, three vouchers, the monthly
breakdown `2023-01 ↦ (300, 2), 2023-02 ↦ (50, 1)`, the customer
breakdown `B ↦ 200, A ↦ 150` (descending by amount, so exactly the
claimed map `A ↦ 150, B ↦ 200`), and the date range
`01-Jan-23 to 01-Feb-23`. -/
theorem sales_scenario_no_context :
    calculate_sales scenarioSales none =
      some ⟨350, 3,
        [("2023-01", ⟨300, 2⟩), ("2023-02", ⟨50, 1⟩)],
        [("B", 200), ("A", 150)],
        "01-Jan-23 to 01-Feb-23"⟩ := by
  decide

/-- C3: on the same scenario with
`date_context = {isDateSpecific := true, months := [jan]}` the filter
acts before the totals: total 300 and two vouchers. -/
theorem sales_scenario_jan_filter :
    (calculate_sales scenarioSales
        (some ⟨true, [MonthVal.str "jan"], []⟩)).map
      (fun s => (s.total_amount, s.voucher_count)) = some (300, 2) := by
  decide

/-- C4: empty sales input returns the zero summary immediately, for
every date context. -/
theorem sales_empty_input (dc : Option DateContext) :
    calculate_sales [] dc = some ⟨0, 0, [], [], "No data"⟩ := rfl

/-- The revenue side of the profit scenario of the spec. -/
def scenarioRevenue : List SalesRecord := [⟨some "01-Jan-23", JVal.num 500, none⟩]

/-- The expense side of the profit scenario of the spec. -/
def scenarioExpense : List SalesRecord := [⟨some "01-Jan-23", JVal.num 200, none⟩]

/-- C8: the profit scenario returns revenue 500, expenses 200, net
profit 300, the single monthly entry `2023-01 ↦ (500, 200, 300)`, and
one entry on each side; and in general `net_profit` is
`total_revenue - total_expenses` while the entry counts are the sizes
of the post-filter revenue and expense frames. -/
theorem profit_scenario_and_invariants :
    calculate_profit scenarioRevenue scenarioExpense none =
      some ⟨500, 200, 300, [("2023-01", ⟨500, 200, 300⟩)], 1, 1⟩ ∧
    ∀ rd ed dc p, calculate_profit rd ed dc = some p →
      p.net_profit = p.total_revenue - p.total_expenses ∧
      ∃ rdf edf, profitSide rd dc = some rdf ∧ profitSide ed dc = some edf ∧
        p.revenue_entries = rdf.length ∧ p.expense_entries = edf.length := by
  constructor
  · decide
  · intro rd ed dc p h
    unfold calculate_profit at h
    cases hx : profitSide rd dc with
    | none => rw [hx] at h; exact absurd h (by simp)
    | some rdf =>
      cases hy : profitSide ed dc with
      | none => rw [hx, hy] at h; exact absurd h (by simp)
      | some edf =>
        rw [hx, hy] at h
        obtain rfl := (Option.some.injEq _ _).mp h
        exact ⟨rfl, rdf, edf, rfl, rfl, rfl, rfl⟩

/-- Witness for the universally quantified part of the profit
invariants, instantiated at the profit scenario. -/
theorem profit_invariants_witness :
    ∃ p, calculate_profit scenarioRevenue scenarioExpense none = some p ∧
      p.net_profit = p.total_revenue - p.total_expenses := by
  have h := profit_scenario_and_invariants
  exact ⟨_, h.1, (h.2 _ _ _ _ h.1).1⟩

/-- C2: when the date context is absent or not date-specific the
filter is a no-op, the total is the sum of the numerically coerced
amounts, and the voucher count is the number of records. -/
theorem sales_conservation_no_filter (rs : List SalesRecord)
    (dc : Option DateContext) (hne : rs ≠ [])
    (h : dc = none ∨ ∃ c, dc = some c ∧ c.isDateSpecific = false) :
    filter_by_date_context (rs.map coerceRec) dc = some (rs.map coerceRec) ∧
    ∃ s, calculate_sales rs dc = some s ∧
      s.total_amount = (rs.map fun r => coerceAmount r.amount).sum ∧
      s.voucher_count = rs.length := by
  have hfilter : filter_by_date_context (rs.map coerceRec) dc =
      some (rs.map coerceRec) := by
    rcases h with rfl | ⟨c, rfl, hc⟩
    · rfl
    · simp [filter_by_date_context, hc]
  refine ⟨hfilter, ?_⟩
  have hi : rs.isEmpty = false := by
    cases rs with
    | nil => exact absurd rfl hne
    | cons a t => rfl
  unfold calculate_sales
  rw [hi]
  simp only [Bool.false_eq_true, if_false]
  rw [hfilter]
  refine ⟨_, rfl, ?_, ?_⟩
  · rw [List.map_map]; rfl
  · exact List.length_map ..

/-- Witness for the conservation law, instantiated at the three-record
sales scenario with no date context. -/
theorem sales_conservation_witness :
    ∃ s, calculate_sales scenarioSales none = some s ∧
      s.total_amount = (scenarioSales.map fun r => coerceAmount r.amount).sum ∧
      s.voucher_count = scenarioSales.length :=
  (sales_conservation_no_filter scenarioSales none (by decide) (Or.inl rfl)).2

/-- C6: a hyphen-containing string is handed to the strict `%d-%b-%y`
parse and nothing else — in particular when the strict parse fails the
result is the unparseable sentinel, with no generic fallback and no
exception. -/
theorem parse_hyphen_no_fallback (s : String) (h : '-' ∈ s.data) :
    parse_date (some s) = parseDMYChars s.data ∧
    (parseDMYChars s.data = none → parse_date (some s) = none) := by
  have hne : s.data ≠ [] := List.ne_nil_of_mem h
  constructor
  · simp [parse_date, hne, h]
  · intro h2
    simp [parse_date, hne, h, h2]

/-- Witness for the no-fallback behaviour: the ISO-style string
`2023-10-15` contains a hyphen, fails the strict format, and parses to
the sentinel. -/
theorem parse_hyphen_no_fallback_witness :
    parse_date (some "2023-10-15") = none :=
  (parse_hyphen_no_fallback "2023-10-15" (by decide)).2 (by decide)

/-- C7: with `isDateSpecific` true and a months list that normalizes
to the empty set, the month step filters nothing: the filter reduces
to the date-parse drop followed by the year step, and with no years
specified every record whose date parses is kept. -/
theorem month_filter_empty_normalization (rs : List CRec) (c : DateContext)
    (h1 : c.isDateSpecific = true) (h2 : normMonths c.months = []) :
    filter_by_date_context rs (some c) =
      applyYearFilter (dropUnparseable rs) c.years ∧
    (c.years = [] →
      filter_by_date_context rs (some c) = some (dropUnparseable rs)) := by
  have hm : applyMonthFilter (dropUnparseable rs) c.months = dropUnparseable rs := by
    unfold applyMonthFilter
    split
    · rfl
    · simp [h2]
  constructor
  · simp [filter_by_date_context, h1, hm]
  · intro hy
    simp [filter_by_date_context, h1, hm, applyYearFilter, hy]

/-- Witness for the empty month normalization: an unrecognized month
string with no year filter keeps the parseable record. -/
theorem month_filter_empty_normalization_witness :
    filter_by_date_context [⟨some "01-Jan-23", 100, none⟩]
        (some ⟨true, [MonthVal.str "xyz"], []⟩) =
      some [⟨some "01-Jan-23", 100, none⟩] := by
  have h := month_filter_empty_normalization [⟨some "01-Jan-23", 100, none⟩]
    ⟨true, [MonthVal.str "xyz"], []⟩ rfl (by decide)
  exact (h.2 rfl).trans (by decide)

/-- Inversion of a successful `calculate_sales` run: either the input
was empty and the zero summary was returned, or the filter succeeded
and every output field is the corresponding aggregation of the
filtered frame. -/
theorem calculate_sales_some {rs : List SalesRecord} {dc : Option DateContext}
    {s : SalesSummary} (h : calculate_sales rs dc = some s) :
    (rs.isEmpty = true ∧ s = ⟨0, 0, [], [], "No data"⟩) ∨
    (rs.isEmpty = false ∧
      ∃ df, filter_by_date_context (rs.map coerceRec) dc = some df ∧
        s = ⟨(df.map fun r => r.amount).sum, df.length,
             monthlyBreakdown (parsedRows df),
             customerBreakdown (rs.map coerceRec) df,
             dateRangeStr (parsedRows df)⟩) := by
  unfold calculate_sales at h
  cases he : rs.isEmpty with
  | true =>
    rw [he] at h
    simp only [if_true] at h
    exact Or.inl ⟨rfl, ((Option.some.injEq _ _).mp h).symm⟩
  | false =>
    rw [he] at h
    simp only [Bool.false_eq_true, if_false] at h
    refine Or.inr ⟨rfl, ?_⟩
    cases hf : filter_by_date_context (rs.map coerceRec) dc with
    | none => rw [hf] at h; exact absurd h (by simp)
    | some df =>
      rw [hf] at h
      exact ⟨df, rfl, ((Option.some.injEq _ _).mp h).symm⟩

instance : IsTotal (String × Rat) fun x y => y.2 ≤ x.2 :=
  ⟨fun a b => le_total b.2 a.2⟩

instance : IsTrans (String × Rat) fun x y => y.2 ≤ x.2 :=
  ⟨fun _ _ _ hab hbc => le_trans hbc hab⟩

/-- The customer breakdown of any pair of frames has at most ten
entries and descends by amount. -/
theorem customerBreakdown_le10_sorted (df0 df : List CRec) :
    (customerBreakdown df0 df).length ≤ 10 ∧
    List.Sorted (fun x y : String × Rat => y.2 ≤ x.2)
      (customerBreakdown df0 df) := by
  unfold customerBreakdown
  split
  · dsimp only
    constructor
    · rw [List.length_take]; exact min_le_left ..
    · exact List.Pairwise.sublist (List.take_sublist ..)
        (List.sorted_insertionSort _ _)
  · exact ⟨by simp, by simp⟩

/-- C9: every successful `calculate_sales` run returns a customer
breakdown with at most ten entries, ordered descending by the summed
amount per account. -/
theorem customer_breakdown_top10 (rs : List SalesRecord)
    (dc : Option DateContext) (s : SalesSummary)
    (h : calculate_sales rs dc = some s) :
    s.customer_breakdown.length ≤ 10 ∧
    List.Sorted (fun x y : String × Rat => y.2 ≤ x.2)
      s.customer_breakdown := by
  rcases calculate_sales_some h with ⟨_, rfl⟩ | ⟨_, df, _, rfl⟩
  · constructor
    · simp
    · simp
  · exact customerBreakdown_le10_sorted ..

/-- Witness for the customer-breakdown bound at the three-record
scenario. -/
theorem customer_breakdown_top10_witness :
    ∃ s, calculate_sales scenarioSales none = some s ∧
      s.customer_breakdown.length ≤ 10 :=
  ⟨_, (by decide :
        calculate_sales scenarioSales none =
          some ⟨350, 3, [("2023-01", ⟨300, 2⟩), ("2023-02", ⟨50, 1⟩)],
                [("B", 200), ("A", 150)], "01-Jan-23 to 01-Feb-23"⟩),
    (customer_breakdown_top10 scenarioSales none _ (by decide)).1⟩

/-- Length of a filter by key equality, as a count over the mapped
keys. -/
theorem filter_key_length {α : Type} (l : List α) (f : α → Nat) (k : Nat) :
    (l.filter fun a => f a == k).length = (l.map f).count k := by
  rw [List.count_eq_countP, List.countP_map]
  exact (List.countP_eq_length_filter _ _).symm

/-- Grouping by a key partitions the rows: the group sizes over the
sorted distinct keys add up to the number of rows. -/
theorem sum_groups_eq_length {α : Type} (rows : List α) (f : α → Nat) :
    ((List.insertionSort (· ≤ ·) ((rows.map f).dedup)).map
      (fun k => (rows.filter fun a => f a == k).length)).sum = rows.length := by
  have hperm : List.Perm (List.insertionSort (· ≤ ·) ((rows.map f).dedup))
      ((rows.map f).dedup) := List.perm_insertionSort _ _
  rw [List.Perm.sum_eq (hperm.map _)]
  have he : (fun k => (rows.filter fun a => f a == k).length) =
      fun k => (rows.map f).count k :=
    funext fun k => filter_key_length rows f k
  rw [he, List.sum_map_count_dedup_eq_length, List.length_map]

/-- The `count` fields of the monthly breakdown add up to the number
of date-carrying rows. -/
theorem monthly_counts_sum (rows : List (CRec × Date)) :
    ((monthlyBreakdown rows).map fun e => e.2.count).sum = rows.length := by
  unfold monthlyBreakdown
  dsimp only
  rw [List.map_map]
  exact sum_groups_eq_length rows fun p => pKey p.2

/-- The date-carrying rows are no more numerous than the frame. -/
theorem parsedRows_length_le (df : List CRec) :
    (parsedRows df).length ≤ df.length :=
  List.length_filterMap_le _ _

/-- When every date in the frame parses, no row is lost to the
`dropna` of the breakdown pass. -/
theorem parsedRows_length_eq (df : List CRec)
    (h : ∀ r ∈ df, (parse_date r.date).isSome = true) :
    (parsedRows df).length = df.length := by
  induction df with
  | nil => rfl
  | cons r t ih =>
    obtain ⟨d, hd⟩ := Option.isSome_iff_exists.mp (h r (List.mem_cons_self r t))
    have ht := ih fun x hx => h x (List.mem_cons_of_mem _ hx)
    have hstep : parsedRows (r :: t) = (r, d) :: parsedRows t := by
      unfold parsedRows
      rw [List.filterMap_cons, hd]
      rfl
    rw [hstep, List.length_cons, ht, List.length_cons]

/-- The month step only removes rows. -/
theorem mem_applyMonthFilter {r : CRec} {rs : List CRec} {ms : List MonthVal}
    (h : r ∈ applyMonthFilter rs ms) : r ∈ rs := by
  unfold applyMonthFilter at h
  split at h
  · exact h
  · split at h
    · exact h
    · exact List.mem_of_mem_filter h

/-- The year step only removes rows. -/
theorem mem_applyYearFilter {rs : List CRec} {ys : List YearVal}
    {out : List CRec} (h : applyYearFilter rs ys = some out) {r : CRec}
    (hr : r ∈ out) : r ∈ rs := by
  unfold applyYearFilter at h
  split at h
  · obtain rfl := (Option.some.injEq _ _).mp h
    exact hr
  · split at h
    · exact absurd h (by simp)
    · split at h
      · obtain rfl := (Option.some.injEq _ _).mp h
        exact hr
      · obtain rfl := (Option.some.injEq _ _).mp h
        exact List.mem_of_mem_filter hr

/-- A survivor of the date-parse drop has a parseable date. -/
theorem mem_dropUnparseable_isSome {r : CRec} {rs : List CRec}
    (h : r ∈ dropUnparseable rs) : (parse_date r.date).isSome = true :=
  (List.mem_filter.mp h).2

/-- C10: in every successful `calculate_sales` run the monthly counts
add up to at most the voucher count; when the date filter is active
they add up to exactly the voucher count, because the filter has
already dropped every record with an unparseable date. -/
theorem monthly_counts_vs_vouchers (rs : List SalesRecord)
    (dc : Option DateContext) (s : SalesSummary)
    (h : calculate_sales rs dc = some s) :
    ((s.monthly_breakdown.map fun e => e.2.count).sum ≤ s.voucher_count) ∧
    (∀ c, dc = some c → c.isDateSpecific = true →
      (s.monthly_breakdown.map fun e => e.2.count).sum = s.voucher_count) := by
  rcases calculate_sales_some h with ⟨_, rfl⟩ | ⟨_, df, hf, rfl⟩
  · exact ⟨by simp, fun c hc hs => by simp⟩
  · constructor
    · rw [show (⟨(df.map fun r => r.amount).sum, df.length,
          monthlyBreakdown (parsedRows df),
          customerBreakdown (rs.map coerceRec) df,
          dateRangeStr (parsedRows df)⟩ : SalesSummary).monthly_breakdown =
            monthlyBreakdown (parsedRows df) from rfl,
          monthly_counts_sum]
      exact parsedRows_length_le df
    · intro c hc hspec
      subst hc
      have hall : ∀ r ∈ df, (parse_date r.date).isSome = true := by
        intro r hr
        simp only [filter_by_date_context, hspec, Bool.not_true,
          Bool.false_eq_true, if_false] at hf
        exact mem_dropUnparseable_isSome
          (mem_applyMonthFilter (mem_applyYearFilter hf hr))
      show ((monthlyBreakdown (parsedRows df)).map fun e => e.2.count).sum =
        df.length
      rw [monthly_counts_sum, parsedRows_length_eq df hall]

/-- Witness for the monthly-count invariant at the scenario with the
active January filter: the counts sum to the voucher count. -/
theorem monthly_counts_vs_vouchers_witness :
    ∃ s, calculate_sales scenarioSales (some janContext) = some s ∧
      (s.monthly_breakdown.map fun e => e.2.count).sum = s.voucher_count := by
  have h1 : calculate_sales scenarioSales (some janContext) =
      some ⟨300, 2, [("2023-01", ⟨300, 2⟩)], [("B", 200), ("A", 100)],
            "01-Jan-23 to 15-Jan-23"⟩ := by decide
  exact ⟨_, h1,
    (monthly_counts_vs_vouchers scenarioSales (some janContext) _ h1).2
      janContext rfl rfl⟩

/-- A digit character is never the separator. -/
theorem digitChar_ne_dash {k : Nat} (h : k < 10) : Nat.digitChar k ≠ '-' := by
  interval_cases k <;> decide

/-- A digit character is never a space. -/
theorem digitChar_ne_space {k : Nat} (h : k < 10) : Nat.digitChar k ≠ ' ' := by
  interval_cases k <;> decide

/-- Digit characters satisfy `isDigit`. -/
theorem isDigit_digitChar {k : Nat} (h : k < 10) :
    (Nat.digitChar k).isDigit = true := by
  interval_cases k <;> decide

/-- Reading back the digit character gives the digit. -/
theorem digitVal_digitChar {k : Nat} (h : k < 10) :
    digitVal (Nat.digitChar k) = k := by
  interval_cases k <;> decide

/-- A zero-padded two-digit numeral contains no separator. -/
theorem dash_not_mem_pad2c (n : Nat) : '-' ∉ pad2c n := by
  intro hmem
  have ha : n / 10 % 10 < 10 := Nat.mod_lt _ (by omega)
  have hb : n % 10 < 10 := Nat.mod_lt _ (by omega)
  rcases List.mem_cons.mp hmem with h | h
  · exact digitChar_ne_dash ha h.symm
  rcases List.mem_cons.mp h with h | h
  · exact digitChar_ne_dash hb h.symm
  · simp at h

/-- A capitalized month abbreviation contains no separator. -/
theorem dash_not_mem_monthAbbrevU {m : Nat} (h1 : 1 ≤ m) (h2 : m ≤ 12) :
    '-' ∉ monthAbbrevU m := by
  interval_cases m <;> decide

/-- Splitting a separator-free list returns it whole. -/
theorem splitOnChar_of_not_mem (c : Char) (a : List Char) (h : c ∉ a) :
    splitOnChar c a = [a] := by
  induction a with
  | nil => rfl
  | cons x xs ih =>
    have hx : x ≠ c := fun e => h (by subst e; exact List.mem_cons_self ..)
    have hxs : c ∉ xs := fun hm => h (List.mem_cons_of_mem _ hm)
    unfold splitOnChar
    rw [if_neg hx, ih hxs]

/-- Splitting peels off a separator-free prefix. -/
theorem splitOnChar_append (c : Char) (a rest : List Char) (h : c ∉ a) :
    splitOnChar c (a ++ c :: rest) = a :: splitOnChar c rest := by
  induction a with
  | nil =>
    show splitOnChar c (c :: rest) = [] :: splitOnChar c rest
    conv_lhs => unfold splitOnChar
    rw [if_pos rfl]
  | cons x xs ih =>
    have hx : x ≠ c := fun e => h (by subst e; exact List.mem_cons_self ..)
    have hxs : c ∉ xs := fun hm => h (List.mem_cons_of_mem _ hm)
    show splitOnChar c (x :: (xs ++ c :: rest)) = (x :: xs) :: splitOnChar c rest
    conv_lhs => unfold splitOnChar
    rw [if_neg hx, ih hxs]

/-- The `%d` directive reads back a zero-padded day. -/
theorem parseDayChars_pad2c {n : Nat} (h1 : 1 ≤ n) (h2 : n ≤ 31) :
    parseDayChars (pad2c n) = some n := by
  have ha : n / 10 % 10 < 10 := Nat.mod_lt _ (by omega)
  have hb : n % 10 < 10 := Nat.mod_lt _ (by omega)
  unfold pad2c parseDayChars
  dsimp only
  rw [if_neg (digitChar_ne_space ha)]
  rw [if_pos ⟨isDigit_digitChar ha, isDigit_digitChar hb⟩]
  rw [digitVal_digitChar ha, digitVal_digitChar hb]
  have hv : 10 * (n / 10 % 10) + n % 10 = n := by omega
  rw [hv]
  rw [if_pos ⟨h1, h2⟩]

/-- The `%y` directive reads back a zero-padded two-digit year. -/
theorem parseYearChars_pad2c {n : Nat} (h : n < 100) :
    parseYearChars (pad2c n) = some n := by
  have ha : n / 10 % 10 < 10 := Nat.mod_lt _ (by omega)
  have hb : n % 10 < 10 := Nat.mod_lt _ (by omega)
  unfold pad2c parseYearChars
  dsimp only
  rw [if_pos ⟨isDigit_digitChar ha, isDigit_digitChar hb⟩]
  rw [digitVal_digitChar ha, digitVal_digitChar hb]
  have hv : 10 * (n / 10 % 10) + n % 10 = n := by omega
  rw [hv]

/-- The `%b` directive reads back the capitalized abbreviation. -/
theorem parseMonthAbbrev_monthAbbrevU {m : Nat} (h1 : 1 ≤ m) (h2 : m ≤ 12) :
    parseMonthAbbrev (monthAbbrevU m) = some m := by
  interval_cases m <;> decide

/-- Every month has at most 31 days. -/
theorem daysInMonth_le (y m : Nat) : daysInMonth y m ≤ 31 := by
  unfold daysInMonth
  split
  · split <;> omega
  · split <;> omega

/-- C5 (amended): for every valid calendar date whose year lies in the
pivot window 1969–2068, rendering with `%d-%b-%y` and re-parsing
returns the original date. -/
theorem date_format_roundtrip (d : Date) (hv : ValidDate d)
    (hy1 : 1969 ≤ d.year) (hy2 : d.year ≤ 2068) :
    parse_date (some (formatDMY d)) = some d := by
  obtain ⟨y, m, day⟩ := d
  unfold ValidDate at hv
  obtain ⟨hm1, hm2, hd1, hd2⟩ := hv
  dsimp only at hm1 hm2 hd1 hd2 hy1 hy2
  have hd31 : day ≤ 31 := le_trans hd2 (daysInMonth_le y m)
  have hL : (formatDMY ⟨y, m, day⟩).data =
      pad2c day ++ '-' :: (monthAbbrevU m ++ '-' :: pad2c (y % 100)) := rfl
  have hne : (formatDMY ⟨y, m, day⟩).data ≠ [] := by
    rw [hL]; simp [pad2c]
  have hdash : '-' ∈ (formatDMY ⟨y, m, day⟩).data := by
    rw [hL]; simp
  have hsplit : splitOnChar '-' ((formatDMY ⟨y, m, day⟩).data) =
      [pad2c day, monthAbbrevU m, pad2c (y % 100)] := by
    rw [hL, splitOnChar_append '-' (pad2c day) _ (dash_not_mem_pad2c day),
        splitOnChar_append '-' (monthAbbrevU m) _
          (dash_not_mem_monthAbbrevU hm1 hm2),
        splitOnChar_of_not_mem '-' _ (dash_not_mem_pad2c (y % 100))]
  have hpv : pivotYear (y % 100) = y := by
    unfold pivotYear; split <;> omega
  unfold parse_date
  dsimp only
  rw [if_neg hne, if_pos hdash]
  unfold parseDMYChars
  rw [hsplit]
  dsimp only
  rw [parseDayChars_pad2c hd1 hd31,
      parseMonthAbbrev_monthAbbrevU hm1 hm2,
      parseYearChars_pad2c (Nat.mod_lt _ (by omega))]
  dsimp only
  rw [hpv]
  rw [if_pos hd2]

/-- Witness for the amended round-trip at 15 October 2023. -/
theorem date_format_roundtrip_witness :
    ValidDate ⟨2023, 10, 15⟩ ∧
    parse_date (some (formatDMY ⟨2023, 10, 15⟩)) = some ⟨2023, 10, 15⟩ :=
  ⟨by decide,
   date_format_roundtrip ⟨2023, 10, 15⟩ (by decide) (by decide) (by decide)⟩

/-- C5 (counterexample): 15 January 1950 is a valid calendar date, it
renders as `15-Jan-50`, but re-parsing yields 15 January 2050 — not
the original date — and `01-Jan-99` parses to 1999, not to
`2000 + 99`. -/
theorem date_format_roundtrip_counterexample :
    ValidDate ⟨1950, 1, 15⟩ ∧
    formatDMY ⟨1950, 1, 15⟩ = "15-Jan-50" ∧
    parse_date (some (formatDMY ⟨1950, 1, 15⟩)) = some ⟨2050, 1, 15⟩ ∧
    parse_date (some (formatDMY ⟨1950, 1, 15⟩)) ≠ some ⟨1950, 1, 15⟩ ∧
    parse_date (some "01-Jan-99") = some ⟨1999, 1, 1⟩ := by
  refine ⟨by decide, by decide, by decide, ?_, by decide⟩
  intro h
  exact absurd h (by decide)
